import Mathlib

/-!
Verification of the Arduino UNO monitor (arduino-monitor-improved.ino plus
its assembly helpers) against its natural-language specification.

The C++ command loop is shallowly embedded: 16-bit machine integers become
`Nat` (with the relevant `% 2 ^ 16` / `% 2 ^ 8` truncations made explicit at
the points where the code casts), SRAM is a function `Nat → Nat` of byte
values, serial input is an explicit stream `Nat → Option Char` indexed by
loop iteration, and `millis()` is an injected clock `Nat → Nat`.  The
interactive command handlers (menu cases 2, 3, 4, 5) become pure functions
of the parsed inputs.  The hand-written AVR assembly routines
(`capture_registers`, `restore_and_call`) are not part of the C++ sources;
they are modelled from the specification, and each such definition says so
in its doc comment.
-/

namespace ArduinoMonitor

/-- Memory bound SRAM_START for the ATmega328P, from the source defines. -/
def SRAM_START : Nat := 0x0100

/-- Memory bound SRAM_END (2KB SRAM), from the source defines. -/
def SRAM_END : Nat := 0x08FF

/-- Memory bound FLASH_END (32KB flash), from the source defines. -/
def FLASH_END : Nat := 0x7FFF

/-- Memory bound IO_START, from the source defines. -/
def IO_START : Nat := 0x0020

/-- Memory bound IO_END, from the source defines. -/
def IO_END : Nat := 0x00FF

/-- Input timeout in milliseconds, from the source defines. -/
def INPUT_TIMEOUT_MS : Nat := 15000

/-- Sentinel value returned by a timed-out input read, from the source defines. -/
def INPUT_TIMEOUT_SENTINEL : Nat := 0xFFFF

/-- Index of the status register slot in the snapshot buffer
(`SREG_BUFFER_INDEX` from `src/asm_defs.h`, documented as 32 in the
repository's analysis report). -/
def SREG_BUFFER_INDEX : Nat := 32

/-- Embedding of `isValidSRAMAddress`: the address lies in `[SRAM_START, SRAM_END]`. -/
def isValidSRAMAddress (addr : Nat) : Bool :=
  decide (SRAM_START ≤ addr ∧ addr ≤ SRAM_END)

/-- Embedding of `isValidFlashAddress`: the address is at most `FLASH_END`. -/
def isValidFlashAddress (addr : Nat) : Bool :=
  decide (addr ≤ FLASH_END)

/-- Embedding of `isIOAddress`: the address lies in `[IO_START, SRAM_START)`. -/
def isIOAddress (addr : Nat) : Bool :=
  decide (IO_START ≤ addr ∧ addr < SRAM_START)

/-- Region classification induced by the branch structure that both the
RAM-read handler (case 3) and the RAM-write handler (case 4) apply to an
address: first `isValidSRAMAddress`, then `isIOAddress`, otherwise the
address is outside every data-access region. -/
inductive Region where
  | data
  | io
  | outOfRange
deriving DecidableEq

/-- Authorization decision produced by a command handler for an address:
proceed silently, proceed only after an explicit confirmation, or refuse. -/
inductive Decision where
  | allow
  | allowWithConfirmation
  | deny
deriving DecidableEq

/-- Classification of an address by the data-access handlers, read off from
the branch structure of menu cases 3 and 4 of `loop`. -/
def classifyAddr (addr : Nat) : Region :=
  if isValidSRAMAddress addr then Region.data
  else if isIOAddress addr then Region.io
  else Region.outOfRange

/-- Decision taken by the RAM-read handler (case 3 of `loop`) for a start
address: a valid SRAM address is read without a prompt; any other address
prints a warning and asks the operator to continue. -/
def authorizeRead (addr : Nat) : Decision :=
  if isValidSRAMAddress addr then Decision.allow
  else Decision.allowWithConfirmation

/-- Decision taken by the RAM-write handler (case 4 of `loop`) for an
address: SRAM is written without a prompt, the I/O region needs a forced
confirmation, everything else is refused. -/
def authorizeWrite (addr : Nat) : Decision :=
  if isValidSRAMAddress addr then Decision.allow
  else if isIOAddress addr then Decision.allowWithConfirmation
  else Decision.deny

/-- Embedding of the span check and read loop of case 3 of `loop`: the
length sentinel aborts, `(uint32_t)addr + len > 0xFFFF` aborts, and
otherwise the bytes at `addr, addr+1, …, addr+len-1` are read in order.
Both operands are promoted to 32 bits in the source, so plain `Nat`
addition is faithful. -/
def readSpan (mem : Nat → Nat) (addr len : Nat) : Option (List Nat) :=
  if len = INPUT_TIMEOUT_SENTINEL then none
  else if 0xFFFF < addr + len then none
  else some ((List.range len).map fun i => mem (addr + i))

/-- Embedding of menu case 3 of `loop` (Read Memory) as a function of the
parsed address, the confirmation key and the parsed length: `none` means
the handler aborted before reading any byte, `some bs` means the bytes `bs`
were read. -/
def readHandler (mem : Nat → Nat) (addrIn : Nat) (confirmIn : Char)
    (lenIn : Nat) : Option (List Nat) :=
  if addrIn = INPUT_TIMEOUT_SENTINEL then none
  else if isValidSRAMAddress addrIn then readSpan mem addrIn lenIn
  else if confirmIn = 'y' ∨ confirmIn = 'Y' then readSpan mem addrIn lenIn
  else none

/-- Outcome reported by the RAM-write handler. -/
inductive WriteOutcome where
  | timedOut
  | denied
  | cancelled
  | verified
  | failed
deriving DecidableEq

/-- Embedding of the unconditional tail of menu case 4 of `loop`: read the
value (sentinel aborts), truncate it to a byte, store it, read the address
back and compare. In the embedded flat memory the read-back is the store
just performed. -/
def doWrite (mem : Nat → Nat) (addrIn valIn : Nat) :
    (Nat → Nat) × WriteOutcome :=
  if valIn = INPUT_TIMEOUT_SENTINEL then (mem, WriteOutcome.timedOut)
  else
    let v := valIn % 256
    let mem1 := fun a => if a = addrIn then v else mem a
    (mem1, if mem1 addrIn = v then WriteOutcome.verified else WriteOutcome.failed)

/-- Embedding of menu case 4 of `loop` (Write Memory) as a function of the
parsed address, the confirmation key and the parsed value; returns the
resulting memory together with the reported outcome. -/
def writeHandler (mem : Nat → Nat) (addrIn : Nat) (confirmIn : Char)
    (valIn : Nat) : (Nat → Nat) × WriteOutcome :=
  if addrIn = INPUT_TIMEOUT_SENTINEL then (mem, WriteOutcome.timedOut)
  else if isValidSRAMAddress addrIn then doWrite mem addrIn valIn
  else if isIOAddress addrIn then
    if confirmIn = 'y' ∨ confirmIn = 'Y' then doWrite mem addrIn valIn
    else (mem, WriteOutcome.cancelled)
  else (mem, WriteOutcome.denied)

/-- Embedding of menu case 2 of `loop` (Modify Register): the register
index comes from `readDecInput` (sentinel aborts, indices above 31 are
rejected), the value from `readHexInput` (sentinel aborts), and the value
is cast to `uint8_t` before the store `reg_file[idx] = val`. -/
def modifyReg (regs : Nat → Nat) (idxIn valIn : Nat) : Nat → Nat :=
  if idxIn = INPUT_TIMEOUT_SENTINEL then regs
  else if 31 < idxIn then regs
  else if valIn = INPUT_TIMEOUT_SENTINEL then regs
  else fun j => if j = idxIn then valIn % 256 else regs j

/-- Embedding of the flash-call bound check of menu case 5 of `loop`:
`(uint32_t)word_addr * 2 > FLASH_END` rejects the request.  The operand is
promoted to 32 bits before the multiplication in the source, so for a
16-bit `word_addr` the product never wraps and plain `Nat` multiplication
is faithful. -/
def callFlashAccepted (word_addr : Nat) : Bool :=
  decide (word_addr * 2 ≤ FLASH_END)

/-- Modelled from the spec: `to_byte_address`, the word-to-byte conversion
applied to a flash jump target.  The conversion itself lives in the
assembly file `asm_utils_fixed.S`, which is not among the C++ sources; the
specification states that it multiplies the word address by the
instruction-word size, here 2. -/
def to_byte_address (word_addr : Nat) : Nat :=
  word_addr * 2

/-- Register file of the ATmega328P as seen by the monitor: the 32
general-purpose registers and the status register SREG, one byte each. -/
@[ext]
structure RegFile where
  regs : Fin 32 → Nat
  sreg : Nat

/-- Modelled from the spec: `capture_registers` from `asm_utils_fixed.S`,
which is not among the C++ sources.  Per the specification it writes every
general-purpose register and the status byte into the caller's buffer at
their canonical indices (SREG at `SREG_BUFFER_INDEX`), the captured values
being the pre-call register values (the routine saves the two pointer
registers before using them), and the capture does not alter the register
file itself; buffer bytes outside the snapshot are left alone. -/
def capture_registers (m : RegFile) (buf : Nat → Nat) : Nat → Nat :=
  fun i =>
    if h : i < 32 then m.regs ⟨i, h⟩
    else if i = SREG_BUFFER_INDEX then m.sreg
    else buf i

/-- Modelled from the spec: `restore_and_call` from `asm_utils_fixed.S`,
which is not among the C++ sources.  Per the specification it restores
every general-purpose register and SREG from the buffer and then transfers
control to the target through a stack-based call, under the narrow
contract that the target returns normally; the target is modelled as a
function on the register file, so a no-op target is `id`, and the result
is the register file after the target has run and returned. -/
def restore_and_call (buf : Nat → Nat) (target : RegFile → RegFile) : RegFile :=
  target { regs := fun i => buf i.val, sreg := buf SREG_BUFFER_INDEX }

/-- Embedding of the C library predicate `isdigit` restricted to the
ASCII characters the serial line delivers. -/
def isDigitChar (c : Char) : Bool :=
  decide (0x30 ≤ c.toNat ∧ c.toNat ≤ 0x39)

/-- Embedding of the C library predicate `isxdigit` restricted to ASCII. -/
def isXDigitChar (c : Char) : Bool :=
  isDigitChar c || decide (0x41 ≤ c.toNat ∧ c.toNat ≤ 0x46)
    || decide (0x61 ≤ c.toNat ∧ c.toNat ≤ 0x66)

/-- The digit-acceptance test of `readInputLine`: `isxdigit` in hex mode,
`isdigit` in decimal mode. -/
def isAcceptedDigit (isHex : Bool) (c : Char) : Bool :=
  if isHex then isXDigitChar c else isDigitChar c

/-- Numeric value of an accepted ASCII digit character, as `strtol`
assigns it. -/
def digitVal (c : Char) : Nat :=
  if c.toNat ≤ 0x39 then c.toNat - 0x30
  else if c.toNat ≤ 0x46 then c.toNat - 0x37
  else c.toNat - 0x57

/-- Value of a digit string under `strtol`, before clamping. -/
def digitsVal (base : Nat) (buf : List Char) : Nat :=
  buf.foldl (fun a c => a * base + digitVal c) 0

/-- Embedding of `strtol` on a buffer that holds only accepted digits: the
value of the digit string, clamped to `LONG_MAX` (32-bit `long` on AVR) on
overflow. -/
def strtolClamped (base : Nat) (buf : List Char) : Nat :=
  min (digitsVal base buf) 0x7FFFFFFF

/-- The value `readInputLine` returns for a completed line: `strtol` in
base 16 or 10, cast to `uint16_t`. -/
def parseInput (isHex : Bool) (buf : List Char) : Nat :=
  strtolClamped (if isHex then 16 else 10) buf % 65536

/-- Result of one iteration of the `readInputLine` loop body: either the
function returns a value together with the final buffer contents, or the
loop continues with an updated `startTime` and buffer. -/
inductive RilStep where
  | ret (v : Nat) (fb : List Char)
  | cont (startTime : Nat) (buf : List Char)
deriving DecidableEq

/-- Embedding of one iteration of the `readInputLine` loop body.  `t` is
the current `millis()` value and `input` what `Serial.available()` /
`Serial.read()` deliver this iteration.  The elapsed-time guard
`millis() - startTime < timeout_ms` ends the wait with
`INPUT_TIMEOUT_SENTINEL`; Enter with a nonempty buffer returns the parsed
value; Enter on an empty buffer just resets `startTime`; backspace or
delete (0x08 / 0x7F) drops the last buffered character; an accepted digit
is appended only while the write position stays below `maxLen - 1`; every
other character is discarded; any received character resets `startTime`
to the current `millis()` value. -/
def rilStep (maxLen timeout : Nat) (isHex : Bool) (t : Nat)
    (input : Option Char) (startTime : Nat) (buf : List Char) : RilStep :=
  if t - startTime < timeout then
    match input with
    | none => RilStep.cont startTime buf
    | some c =>
      if c = '\n' ∨ c = '\r' then
        if 0 < buf.length then RilStep.ret (parseInput isHex buf) buf
        else RilStep.cont t buf
      else if c.toNat = 0x08 ∨ c.toNat = 0x7F then
        RilStep.cont t buf.dropLast
      else if buf.length < maxLen - 1 ∧ isAcceptedDigit isHex c = true then
        RilStep.cont t (buf ++ [c])
      else
        RilStep.cont t buf
  else RilStep.ret INPUT_TIMEOUT_SENTINEL buf

/-- Embedding of the `readInputLine` loop.  `clock` is the injected
`millis()` counter and `avail` the serial stream, both indexed by loop
iteration; `fuel` bounds the number of iterations the embedding observes;
`n`, `startTime` and `buf` are the loop state.  `none` means the loop was
still running after `fuel` iterations; `some (v, b)` means the call
returned value `v` with final buffer contents `b`. -/
def readInputLine (maxLen timeout : Nat) (isHex : Bool) (clock : Nat → Nat)
    (avail : Nat → Option Char) :
    Nat → Nat → Nat → List Char → Option (Nat × List Char)
  | 0, _, _, _ => none
  | fuel + 1, n, startTime, buf =>
    match rilStep maxLen timeout isHex (clock n) (avail n) startTime buf with
    | RilStep.ret v fb => some (v, fb)
    | RilStep.cont st2 buf2 =>
        readInputLine maxLen timeout isHex clock avail fuel (n + 1) st2 buf2

/-- Serial stream delivering the characters of a list, one per loop
iteration, and nothing afterwards. -/
def streamOf (l : List Char) : Nat → Option Char :=
  fun n => l.get? n

/-- Invariant of the `readInputLine` buffer: the write position never
passes `maxLen - 1` (so `buffer[pos] = 0` stays inside a `maxLen`-byte
buffer) and every stored character passed the digit-acceptance test. -/
def bufInv (maxLen : Nat) (isHex : Bool) (buf : List Char) : Prop :=
  buf.length ≤ maxLen - 1 ∧ ∀ c ∈ buf, isAcceptedDigit isHex c = true

/-- Embedding of the confirmation-prompt wait used by menu cases 3, 4 and
5 of `loop`: `while (!Serial.available()) ; confirm = Serial.read();`.
The loop consults only the serial stream — no clock — so the embedding
takes the stream and an iteration bound `fuel`; `none` means no character
had arrived after `fuel` iterations and the wait was still spinning. -/
def confirmWait (avail : Nat → Option Char) : Nat → Nat → Option Char
  | 0, _ => none
  | fuel + 1, n =>
    match avail n with
    | some c => some c
    | none => confirmWait avail fuel (n + 1)

/-! ### Helper lemmas -/

/-- The confirmation-prompt wait makes no progress on a silent line, at
any iteration bound: it consults no clock, so there is no timeout. -/
theorem confirmWait_none_stream (fuel n : Nat) :
    confirmWait (fun _ => none) fuel n = none := by
  induction fuel generalizing n with
  | zero => rfl
  | succ f ih => simpa [confirmWait] using ih (n + 1)

/-- On a silent line with a millisecond-per-iteration clock, the
`readInputLine` loop returns the timeout sentinel once enough iterations
have elapsed for the clock to pass the timeout. -/
theorem readInputLine_none_stream (maxLen timeout : Nat) (isHex : Bool) :
    ∀ fuel n st buf, st ≤ n → timeout + st ≤ n + fuel →
      readInputLine maxLen timeout isHex (fun k => k) (fun _ => none)
        (fuel + 1) n st buf = some (INPUT_TIMEOUT_SENTINEL, buf) := by
  intro fuel
  induction fuel with
  | zero =>
    intro n st buf h1 h2
    have hge : ¬ (n - st < timeout) := by omega
    rw [readInputLine]
    simp [rilStep, hge]
  | succ f ih =>
    intro n st buf h1 h2
    rw [readInputLine]
    by_cases hc : n - st < timeout
    · simp only [rilStep, hc, if_true]
      exact ih (n + 1) st buf (by omega) (by omega)
    · simp [rilStep, hc]

/-- One iteration of the `readInputLine` loop body preserves the buffer
invariant, both in the continuing and in the returning case. -/
theorem rilStep_inv (maxLen timeout : Nat) (isHex : Bool)
    (t : Nat) (input : Option Char) (st : Nat) (buf : List Char)
    (h : bufInv maxLen isHex buf) :
    (∀ v fb, rilStep maxLen timeout isHex t input st buf = RilStep.ret v fb →
      bufInv maxLen isHex fb) ∧
    (∀ st2 buf2, rilStep maxLen timeout isHex t input st buf = RilStep.cont st2 buf2 →
      bufInv maxLen isHex buf2) := by
  obtain ⟨hlen, hmem⟩ := h
  unfold rilStep
  by_cases hc : t - st < timeout
  · rw [if_pos hc]
    cases input with
    | none =>
      dsimp only
      refine ⟨fun v fb hr => (by cases hr), fun st2 buf2 hr => ?_⟩
      cases hr
      exact ⟨hlen, hmem⟩
    | some c =>
      dsimp only
      by_cases hnl : c = '\n' ∨ c = '\r'
      · rw [if_pos hnl]
        by_cases hpos : 0 < buf.length
        · rw [if_pos hpos]
          refine ⟨fun v fb hr => ?_, fun st2 buf2 hr => (by cases hr)⟩
          cases hr
          exact ⟨hlen, hmem⟩
        · rw [if_neg hpos]
          refine ⟨fun v fb hr => (by cases hr), fun st2 buf2 hr => ?_⟩
          cases hr
          exact ⟨hlen, hmem⟩
      · rw [if_neg hnl]
        by_cases hbs : c.toNat = 0x08 ∨ c.toNat = 0x7F
        · rw [if_pos hbs]
          refine ⟨fun v fb hr => (by cases hr), fun st2 buf2 hr => ?_⟩
          cases hr
          refine ⟨?_, fun c2 hc2 => hmem c2 (List.mem_of_mem_dropLast hc2)⟩
          have := List.length_dropLast buf
          omega
        · rw [if_neg hbs]
          by_cases hd : buf.length < maxLen - 1 ∧ isAcceptedDigit isHex c = true
          · rw [if_pos hd]
            refine ⟨fun v fb hr => (by cases hr), fun st2 buf2 hr => ?_⟩
            cases hr
            constructor
            · have := hd.1
              simp only [List.length_append, List.length_singleton]
              omega
            · intro c2 hc2
              rcases List.mem_append.mp hc2 with h2 | h2
              · exact hmem c2 h2
              · rw [List.mem_singleton.mp h2]
                exact hd.2
          · rw [if_neg hd]
            refine ⟨fun v fb hr => (by cases hr), fun st2 buf2 hr => ?_⟩
            cases hr
            exact ⟨hlen, hmem⟩
  · rw [if_neg hc]
    refine ⟨fun v fb hr => ?_, fun st2 buf2 hr => (by cases hr)⟩
    cases hr
    exact ⟨hlen, hmem⟩

/-! ### Claim theorems -/

/-- C1: capturing the register file into a snapshot buffer and then
immediately restoring that buffer with `restore_and_call` to a no-op
target that returns normally leaves all 32 general-purpose registers and
the status register bit-for-bit identical to their pre-capture state. -/
theorem c1_capture_restore_roundtrip (m : RegFile) (buf : Nat → Nat) :
    restore_and_call (capture_registers m buf) id = m := by
  unfold restore_and_call capture_registers
  ext i
  · simp [i.isLt]
  · simp [SREG_BUFFER_INDEX]

/-- C2 counterexample: a read starting at the last SRAM address 0x08FF
with length 2 passes validation and transfers both bytes, although the
second address of the span, 0x0900, is not a valid SRAM address and no
confirmation was given — so the span is not validated as a whole and the
read is not aborted. -/
theorem c2_counterexample :
    readHandler (fun _ => 0) 0x08FF 'n' 2 = some [0, 0] ∧
      isValidSRAMAddress 0x0900 = false := by
  constructor <;> decide

/-- C2 amended: only the start address is validated against the SRAM
region (a start outside it merely asks for confirmation); the span is
checked only against the 16-bit address space: with a valid SRAM start
address and a non-sentinel length, the read aborts with no bytes
transferred when `addr + len` exceeds 0xFFFF, and otherwise reads exactly
the `len` bytes at `addr, …, addr+len-1` in increasing order, even where
the tail of the span leaves the SRAM region. -/
theorem c2_amended_span_check (mem : Nat → Nat) (addr len : Nat) (c : Char)
    (haddr : isValidSRAMAddress addr = true)
    (hlen : len ≠ INPUT_TIMEOUT_SENTINEL) :
    (addr + len ≤ 0xFFFF →
      readHandler mem addr c len
        = some ((List.range len).map fun i => mem (addr + i))) ∧
    (0xFFFF < addr + len → readHandler mem addr c len = none) := by
  have h1 : SRAM_START ≤ addr ∧ addr ≤ SRAM_END := by
    simpa [isValidSRAMAddress] using haddr
  simp only [SRAM_START, SRAM_END] at h1
  have hns : addr ≠ INPUT_TIMEOUT_SENTINEL := by
    simp only [INPUT_TIMEOUT_SENTINEL]
    omega
  constructor
  · intro hle
    rw [readHandler, if_neg hns, if_pos haddr, readSpan, if_neg hlen,
      if_neg (by omega)]
  · intro hgt
    rw [readHandler, if_neg hns, if_pos haddr, readSpan, if_neg hlen,
      if_pos hgt]

/-- C2 amended, witnessed at a concrete input: a 2-byte read at 0x0200
returns the two bytes, and a read of 0xFE00 bytes at 0x0200 overflows the
address space and aborts. -/
theorem c2_amended_span_check_witness :
    readHandler (fun a => a % 251) 0x0200 'n' 2
        = some ((List.range 2).map fun i => (0x0200 + i) % 251) ∧
      readHandler (fun a => a % 251) 0x0200 'n' 0xFE00 = none := by
  constructor
  · exact (c2_amended_span_check (fun a => a % 251) 0x0200 2 'n' (by decide)
      (by decide)).1 (by decide)
  · exact (c2_amended_span_check (fun a => a % 251) 0x0200 0xFE00 'n' (by decide)
      (by decide)).2 (by decide)

/-- C3 counterexample: the address 0x9000 lies outside every known region
and is classified out-of-range, yet the read path does not deny it — it
asks for confirmation, and with a `y` answer the read of one byte is
actually performed. -/
theorem c3_counterexample :
    classifyAddr 0x9000 = Region.outOfRange ∧
      authorizeRead 0x9000 = Decision.allowWithConfirmation ∧
      readHandler (fun _ => 7) 0x9000 'y' 1 = some [7] := by
  refine ⟨by decide, by decide, by decide⟩

/-- C3 amended: for every address above `FLASH_END` (and hence outside the
data, I/O and code regions), classification yields out-of-range and writes
are denied, but reads are allowed after an explicit confirmation — warned
about, not refused. -/
theorem c3_amended_outside_regions (a : Nat) (h : FLASH_END < a) :
    classifyAddr a = Region.outOfRange ∧
      authorizeWrite a = Decision.deny ∧
      authorizeRead a = Decision.allowWithConfirmation := by
  simp only [FLASH_END] at h
  have hs : isValidSRAMAddress a = false := by
    simp only [isValidSRAMAddress, SRAM_START, SRAM_END, decide_eq_false_iff_not]
    omega
  have hio : isIOAddress a = false := by
    simp only [isIOAddress, IO_START, SRAM_START, decide_eq_false_iff_not]
    omega
  simp [classifyAddr, authorizeWrite, authorizeRead, hs, hio]

/-- C3 amended, witnessed at the concrete out-of-range address 0x9000. -/
theorem c3_amended_outside_regions_witness :
    classifyAddr 0x9000 = Region.outOfRange ∧
      authorizeWrite 0x9000 = Decision.deny ∧
      authorizeRead 0x9000 = Decision.allowWithConfirmation :=
  c3_amended_outside_regions 0x9000 (by decide)

/-- C4: for every 16-bit word address whose doubled value stays within
the code region, the flash-call request is accepted and the word-to-byte
conversion yields exactly twice the word address; every word address whose
doubled value lies above `FLASH_END` is rejected.  The product is formed
in 32 bits in the source, so the comparison sees the true product and a
16-bit wraparound cannot defeat the bound check. -/
theorem c4_word_to_byte_bound (w : Nat) (_hw : w < 65536) :
    (w * 2 ≤ FLASH_END →
      callFlashAccepted w = true ∧ to_byte_address w = w * 2) ∧
    (FLASH_END < w * 2 → callFlashAccepted w = false) := by
  constructor
  · intro h
    exact ⟨by simpa [callFlashAccepted] using h, rfl⟩
  · intro h
    simp only [callFlashAccepted, decide_eq_false_iff_not]
    omega

/-- C4 witnessed at concrete inputs: word address 0x1000 is accepted with
byte target 0x2000, and word address 0x8001 — whose doubled value wraps to
2 in 16 bits — is rejected. -/
theorem c4_word_to_byte_bound_witness :
    (callFlashAccepted 0x1000 = true ∧ to_byte_address 0x1000 = 0x1000 * 2) ∧
      callFlashAccepted 0x8001 = false := by
  constructor
  · exact (c4_word_to_byte_bound 0x1000 (by decide)).1 (by decide)
  · exact (c4_word_to_byte_bound 0x8001 (by decide)).2 (by decide)

/-- C5 counterexample: the yes/no confirmation wait is still spinning
after 15001 iterations of a millisecond-per-iteration silent line — past
the configured 15000 ms timeout — so not every blocking wait terminates
within the timeout; and the line-entry sentinel is not distinguishable
from every valid input, since typing the valid hex line `FFFF` returns
exactly `INPUT_TIMEOUT_SENTINEL`. -/
theorem c5_counterexample :
    confirmWait (fun _ => none) (INPUT_TIMEOUT_MS + 1) 0 = none ∧
      readInputLine 10 INPUT_TIMEOUT_MS true (fun n => n)
          (streamOf ['F', 'F', 'F', 'F', '\n']) 6 0 0 []
        = some (INPUT_TIMEOUT_SENTINEL, ['F', 'F', 'F', 'F']) := by
  constructor
  · exact confirmWait_none_stream (INPUT_TIMEOUT_MS + 1) 0
  · decide

/-- C5 amended: the line-entry wait `readInputLine` is bounded — on a
silent line with a millisecond-per-iteration clock it returns the
reserved sentinel `INPUT_TIMEOUT_SENTINEL` as soon as the elapsed time
passes the timeout — but the yes/no confirmation prompts consult no clock
and are still waiting after any number of iterations, and the sentinel
value 0xFFFF coincides with the value parsed from the valid input line
`FFFF`, so it is reserved only by convention, not unreachable. -/
theorem c5_amended_timeouts (maxLen timeout fuel : Nat) (isHex : Bool)
    (h : timeout < fuel) :
    readInputLine maxLen timeout isHex (fun k => k) (fun _ => none)
        fuel 0 0 [] = some (INPUT_TIMEOUT_SENTINEL, []) ∧
      confirmWait (fun _ => none) fuel 0 = none ∧
      parseInput true ['F', 'F', 'F', 'F'] = INPUT_TIMEOUT_SENTINEL := by
  refine ⟨?_, confirmWait_none_stream fuel 0, by decide⟩
  obtain ⟨f, rfl⟩ : ∃ f, fuel = f + 1 := ⟨fuel - 1, by omega⟩
  exact readInputLine_none_stream maxLen timeout isHex f 0 0 []
    (Nat.le_refl 0) (by omega)

/-- C5 amended, witnessed at concrete values: with timeout 3 and 4
observed iterations the line entry has returned the sentinel while the
confirmation wait has not returned. -/
theorem c5_amended_timeouts_witness :
    readInputLine 10 3 true (fun k => k) (fun _ => none) 4 0 0 []
        = some (INPUT_TIMEOUT_SENTINEL, []) ∧
      confirmWait (fun _ => none) 4 0 = none ∧
      parseInput true ['F', 'F', 'F', 'F'] = INPUT_TIMEOUT_SENTINEL :=
  c5_amended_timeouts 10 3 4 true (by decide)

/-- C6: a write request at an I/O-region address reaches the actual store
only behind the confirmation gate: with any confirmation key other than
`y`/`Y` the handler cancels and the memory is returned unchanged, and
conversely the memory can differ from the initial memory only if the
confirmation was `y` or `Y`. -/
theorem c6_io_write_confirmation (mem : Nat → Nat) (addr : Nat)
    (confirm : Char) (val : Nat) (hio : isIOAddress addr = true) :
    (confirm ≠ 'y' → confirm ≠ 'Y' →
      writeHandler mem addr confirm val = (mem, WriteOutcome.cancelled)) ∧
    ((writeHandler mem addr confirm val).1 ≠ mem →
      confirm = 'y' ∨ confirm = 'Y') := by
  have h1 : IO_START ≤ addr ∧ addr < SRAM_START := by
    simpa [isIOAddress] using hio
  simp only [IO_START, SRAM_START] at h1
  have hns : addr ≠ INPUT_TIMEOUT_SENTINEL := by
    simp only [INPUT_TIMEOUT_SENTINEL]
    omega
  have hs : isValidSRAMAddress addr = false := by
    simp only [isValidSRAMAddress, SRAM_START, SRAM_END, decide_eq_false_iff_not]
    omega
  constructor
  · intro hy hY
    simp [writeHandler, hns, hs, hio, hy, hY]
  · intro hchange
    by_contra hcon
    push_neg at hcon
    apply hchange
    simp [writeHandler, hns, hs, hio, hcon.1, hcon.2]

/-- C6 witnessed at a concrete input: a write of 0xAB to the I/O address
0x0050 with confirmation `n` is cancelled and leaves memory unchanged. -/
theorem c6_io_write_confirmation_witness :
    writeHandler (fun _ => 0) 0x0050 'n' 0xAB
      = ((fun _ => 0), WriteOutcome.cancelled) :=
  (c6_io_write_confirmation (fun _ => 0) 0x0050 'n' 0xAB (by decide)).1
    (by decide) (by decide)

/-- C7: writing a byte to a data-memory (SRAM) address stores the byte,
the read-back comparison succeeds, the handler reports the verified
outcome, and a subsequent one-byte read at that address returns exactly
the written byte. -/
theorem c7_write_readback (mem : Nat → Nat) (a v : Nat) (c c2 : Char)
    (ha : isValidSRAMAddress a = true) (hv : v < 256) :
    writeHandler mem a c v
        = ((fun x => if x = a then v else mem x), WriteOutcome.verified) ∧
      readHandler (fun x => if x = a then v else mem x) a c2 1 = some [v] := by
  have h1 : SRAM_START ≤ a ∧ a ≤ SRAM_END := by
    simpa [isValidSRAMAddress] using ha
  simp only [SRAM_START, SRAM_END] at h1
  have hans : a ≠ INPUT_TIMEOUT_SENTINEL := by
    simp only [INPUT_TIMEOUT_SENTINEL]
    omega
  have hvns : v ≠ INPUT_TIMEOUT_SENTINEL := by
    simp only [INPUT_TIMEOUT_SENTINEL]
    omega
  have hmod : v % 256 = v := Nat.mod_eq_of_lt hv
  constructor
  · simp [writeHandler, hans, ha, doWrite, hvns, hmod]
  · rw [readHandler, if_neg hans, if_pos ha, readSpan,
      if_neg (by simp only [INPUT_TIMEOUT_SENTINEL]; omega),
      if_neg (by omega)]
    simp [List.range_succ]

/-- C7 witnessed at a concrete input: writing 0xAB at the SRAM address
0x0200 verifies and reads back as 0xAB. -/
theorem c7_write_readback_witness :
    writeHandler (fun _ => 0) 0x0200 'n' 0xAB
        = ((fun x => if x = 0x0200 then 0xAB else 0), WriteOutcome.verified) ∧
      readHandler (fun x => if x = 0x0200 then 0xAB else 0) 0x0200 'n' 1
        = some [0xAB] :=
  c7_write_readback (fun _ => 0) 0x0200 0xAB 'n' 'n' (by decide) (by decide)

/-- C8 counterexample: the claim assigns the single decision Deny to the
out-of-range address 0x0900, but the read path's decision at 0x0900 is
AllowWithConfirmation, a decision distinct from Deny, and after a `y`
confirmation the one-byte read at 0x0900 is actually performed. -/
theorem c8_counterexample :
    authorizeRead 0x0900 = Decision.allowWithConfirmation ∧
      Decision.allowWithConfirmation ≠ Decision.deny ∧
      readHandler (fun _ => 3) 0x0900 'y' 1 = some [3] := by
  refine ⟨by decide, by decide, by decide⟩

/-- C8 amended: with the fixed region boundaries, address 0x0050
classifies as I/O and both reading and writing it require confirmation;
address 0x0900 classifies as out-of-range, writing it is denied, but
reading it is allowed with confirmation rather than denied; address
0x0200 classifies as data memory and both reading and writing it are
allowed without confirmation. -/
theorem c8_classify_examples :
    classifyAddr 0x0050 = Region.io ∧
      authorizeWrite 0x0050 = Decision.allowWithConfirmation ∧
      authorizeRead 0x0050 = Decision.allowWithConfirmation ∧
      classifyAddr 0x0900 = Region.outOfRange ∧
      authorizeWrite 0x0900 = Decision.deny ∧
      authorizeRead 0x0900 = Decision.allowWithConfirmation ∧
      classifyAddr 0x0200 = Region.data ∧
      authorizeWrite 0x0200 = Decision.allow ∧
      authorizeRead 0x0200 = Decision.allow := by
  decide

/-- C9: the Modify Register handler with an index in 0..31 and a byte
value sets exactly the snapshot slot at that index and leaves every other
slot — in particular the status-register slot at index 32 — unchanged;
with any index above 31 the whole snapshot buffer is unchanged. -/
theorem c9_modify_register_frame (regs : Nat → Nat) (idx v : Nat) :
    (idx ≤ 31 → v < 256 →
      modifyReg regs idx v idx = v ∧
        ∀ j, j ≠ idx → modifyReg regs idx v j = regs j) ∧
    (31 < idx → modifyReg regs idx v = regs) := by
  constructor
  · intro hidx hv
    have h1 : idx ≠ INPUT_TIMEOUT_SENTINEL := by
      simp only [INPUT_TIMEOUT_SENTINEL]
      omega
    have h2 : ¬ 31 < idx := by omega
    have h3 : v ≠ INPUT_TIMEOUT_SENTINEL := by
      simp only [INPUT_TIMEOUT_SENTINEL]
      omega
    refine ⟨?_, fun j hj => ?_⟩
    · simp [modifyReg, h1, h2, h3, Nat.mod_eq_of_lt hv]
    · simp [modifyReg, h1, h2, h3, hj]
  · intro h
    by_cases h1 : idx = INPUT_TIMEOUT_SENTINEL
    · simp [modifyReg, h1]
    · simp [modifyReg, h1, h]

/-- C9 witnessed at concrete inputs: setting register 5 to 0xAB writes
slot 5, leaves the SREG slot 32 unchanged, and an index of 40 leaves the
whole buffer unchanged. -/
theorem c9_modify_register_frame_witness :
    modifyReg (fun _ => 9) 5 0xAB 5 = 0xAB ∧
      modifyReg (fun _ => 9) 5 0xAB 32 = (fun _ => 9 : Nat → Nat) 32 ∧
      modifyReg (fun _ => 9) 40 0xAB = (fun _ => 9) := by
  refine ⟨((c9_modify_register_frame (fun _ => 9) 5 0xAB).1 (by decide)
      (by decide)).1,
    ((c9_modify_register_frame (fun _ => 9) 5 0xAB).1 (by decide)
      (by decide)).2 32 (by decide),
    (c9_modify_register_frame (fun _ => 9) 40 0xAB).2 (by decide)⟩

/-- C10: over any clock and any serial stream, starting from a buffer
state satisfying the buffer invariant — at most `maxLen - 1` stored
characters, all of them accepted digits — every value the
`readInputLine` loop returns comes with a final buffer that still
satisfies the invariant, so the terminating null is always written in
bounds; and a received character that is not Enter, not backspace or
delete, and not an accepted digit is silently discarded: the loop
continues with the buffer unchanged. -/
theorem c10_input_buffer_safety (maxLen timeout : Nat) (isHex : Bool)
    (clock : Nat → Nat) (avail : Nat → Option Char) :
    (∀ fuel n st buf v fb, bufInv maxLen isHex buf →
      readInputLine maxLen timeout isHex clock avail fuel n st buf
          = some (v, fb) →
      bufInv maxLen isHex fb) ∧
    (∀ t st buf c, t - st < timeout →
      ¬(c = '\n' ∨ c = '\r') → ¬(c.toNat = 0x08 ∨ c.toNat = 0x7F) →
      isAcceptedDigit isHex c = false →
      rilStep maxLen timeout isHex t (some c) st buf = RilStep.cont t buf) := by
  constructor
  · intro fuel
    induction fuel with
    | zero =>
      intro n st buf v fb _ h
      rw [readInputLine] at h
      cases h
    | succ f ih =>
      intro n st buf v fb hinv h
      rw [readInputLine] at h
      rcases hstep : rilStep maxLen timeout isHex (clock n) (avail n) st buf with
        ⟨v0, fb0⟩ | ⟨st2, buf2⟩
      · rw [hstep] at h
        have h2 := (rilStep_inv maxLen timeout isHex (clock n) (avail n) st buf
          hinv).1 v0 fb0 hstep
        obtain ⟨rfl, rfl⟩ : v0 = v ∧ fb0 = fb := by
          simpa using h
        exact h2
      · rw [hstep] at h
        exact ih (n + 1) st2 buf2 v fb
          ((rilStep_inv maxLen timeout isHex (clock n) (avail n) st buf
            hinv).2 st2 buf2 hstep) h
  · intro t st buf c hc hnl hbs hd
    unfold rilStep
    rw [if_pos hc]
    dsimp only
    rw [if_neg hnl, if_neg hbs, if_neg (by simp [hd])]

/-- C10 witnessed at concrete inputs: the run that types `AB` and Enter
returns with the in-bounds all-digit buffer `['A', 'B']`, and the
non-digit character `Z` is discarded, leaving the buffer `['A']`
unchanged. -/
theorem c10_input_buffer_safety_witness :
    bufInv 10 true ['A', 'B'] ∧
      rilStep 10 15000 true 2 (some 'Z') 0 ['A'] = RilStep.cont 2 ['A'] := by
  constructor
  · exact (c10_input_buffer_safety 10 15000 true (fun n => n)
        (streamOf ['A', 'B', '\n'])).1 4 0 0 [] 0xAB ['A', 'B']
      ⟨by decide, by decide⟩ (by decide)
  · exact (c10_input_buffer_safety 10 15000 true (fun n => n)
        (fun _ => none)).2 2 0 ['A'] 'Z' (by decide) (by decide) (by decide)
      (by decide)

end ArduinoMonitor
